import Mathlib

/-!
# AInsight core — shallow embedding

Embeds the agent/tool runtime, the execution safety gate, the code-generation
LIMIT rewriting and the orchestration refinement loop of the AInsight backend
(`src/backend/src/adk/Agent` via the ADK sources, `agents/ExecutionAgent.ts`,
`agents/CodeGenerationAgent.ts`, `orchestration/AgentOrchestrator.ts`).
Statement text is modelled as `List Char`; the JavaScript regular expressions
of the gate are modelled as executable scanners with the same match semantics.
-/

/-- Characters matched by the JavaScript regex class `\s`. -/
def isWsChar (c : Char) : Bool :=
  c = '\t' || c = '\n' || c = '\x0b' || c = '\x0c' || c = '\r' || c = ' ' ||
  c = '\u00A0' || c = '\u1680' || ('\u2000' ≤ c && c ≤ '\u200A') ||
  c = '\u2028' || c = '\u2029' || c = '\u202F' || c = '\u205F' ||
  c = '\u3000' || c = '\uFEFF'

/-- JavaScript line terminators, the characters `.` does not match. -/
def isLineTerminator (c : Char) : Bool :=
  c = '\n' || c = '\r' || c = '\u2028' || c = '\u2029'

/-- Characters matched by the JavaScript regex `.` (no `s` flag). -/
def isDotChar (c : Char) : Bool :=
  !isLineTerminator c

/-- Characters matched by the JavaScript regex class `\w`. -/
def isWordChar (c : Char) : Bool :=
  ('a' ≤ c && c ≤ 'z') || ('A' ≤ c && c ≤ 'Z') || ('0' ≤ c && c ≤ '9') || c = '_'

/-- Does `p` hold of some suffix of the list (i.e. does an anchored pattern
match at some position)? -/
def anySuffix (p : List Char → Bool) : List Char → Bool
  | [] => p []
  | c :: rest => p (c :: rest) || anySuffix p rest

/-- Anchored match of `\s+KW`: one or more `\s` characters, then `kw`. -/
def wsThenKw (kw : List Char) : List Char → Bool
  | [] => false
  | c :: rest => isWsChar c && (kw.isPrefixOf rest || wsThenKw kw rest)

/-- Anchored match of `KW1\s+KW2` (the shape of `DROP\s+TABLE` etc.). -/
def matchKwPairAt (k1 k2 : List Char) (l : List Char) : Bool :=
  k1.isPrefixOf l && wsThenKw k2 (l.drop k1.length)

/-- Anchored match of `\s+SET`. -/
def wsThenSet : List Char → Bool
  | [] => false
  | c :: rest => isWsChar c && (("SET".data).isPrefixOf rest || wsThenSet rest)

/-- Anchored match of `.*\s+SET`. -/
def dotStarWsSet : List Char → Bool
  | [] => false
  | c :: rest => wsThenSet (c :: rest) || (isDotChar c && dotStarWsSet rest)

/-- Anchored match of `\s+.*\s+SET`. -/
def wsThenDotStarWsSet : List Char → Bool
  | [] => false
  | c :: rest => isWsChar c && (dotStarWsSet rest || wsThenDotStarWsSet rest)

/-- Anchored match of `UPDATE\s+.*\s+SET`. -/
def matchUpdateSetAt (l : List Char) : Bool :=
  ("UPDATE".data).isPrefixOf l && wsThenDotStarWsSet (l.drop 6)

/-- The `forbiddenPatterns` test of `ExecutionAgent.executeSQLCode`
(`src/backend/src/agents/ExecutionAgent.ts` lines 123-140): true iff any of
the ten case-insensitive regexes matches anywhere in the statement text.
Case-insensitivity is the `i` flag, modelled by uppercasing the subject
(the pattern literals are already upper-case ASCII). -/
def forbiddenPatternsMatch (code : List Char) : Bool :=
  let u := code.map Char.toUpper
  anySuffix (matchKwPairAt ("DROP".data) ("TABLE".data)) u ||
  anySuffix (matchKwPairAt ("DROP".data) ("DATABASE".data)) u ||
  anySuffix (matchKwPairAt ("DELETE".data) ("FROM".data)) u ||
  anySuffix (("TRUNCATE".data).isPrefixOf) u ||
  anySuffix (matchKwPairAt ("ALTER".data) ("TABLE".data)) u ||
  anySuffix (matchKwPairAt ("CREATE".data) ("TABLE".data)) u ||
  anySuffix (matchKwPairAt ("INSERT".data) ("INTO".data)) u ||
  anySuffix matchUpdateSetAt u ||
  anySuffix (("GRANT".data).isPrefixOf) u ||
  anySuffix (("REVOKE".data).isPrefixOf) u

/-- The error text thrown for a denylisted statement. -/
def dangerousSQLError : String :=
  "Dangerous SQL operation detected. Read-only queries only."

/-- The error text thrown when no database adapter is configured. -/
def storeNotConfiguredError : String :=
  "Database adapter not configured. Please configure the database connection first."

/-- Structure `ExecutionResult` of `src/backend/src/agents/types.ts`. -/
structure ExecutionResult (Row : Type) where
  success : Bool
  data : Option (List Row)
  error : Option String
  executionTime : Nat

/-- Function `ExecutionAgent.executeSQLCode`: reject a statement matching the denylist
(the thrown error surfaces through `execute`'s catch as a failure), reject
when no adapter is configured, otherwise run the statement through the
adapter's `executeQuery`. The second component is the list of statements
passed to the adapter during the call. -/
def executeSQLCode {Row : Type} (dbAdapter : Option (List Char → List Row))
    (code : List Char) (executionTime : Nat) :
    Except String (ExecutionResult Row) × List (List Char) :=
  if forbiddenPatternsMatch code then
    (.error dangerousSQLError, [])
  else
    match dbAdapter with
    | none => (.error storeNotConfiguredError, [])
    | some executeQuery =>
        (.ok { success := true, data := some (executeQuery code), error := none,
               executionTime := executionTime }, [code])

/-- The `blockedGlobals` list of `ExecutionAgent.executeJavaScriptCode`
(`src/backend/src/agents/ExecutionAgent.ts` lines 161-176). -/
def blockedGlobals : List (List Char) :=
  ["require".data, "process".data, "global".data, "globalThis".data,
   "__dirname".data, "__filename".data, "module".data, "exports".data,
   "Buffer".data, "fetch".data, "XMLHttpRequest".data, "WebSocket".data,
   "eval".data, "Function".data]

/-- Anchored bare-word occurrence test for one position: the regex
`(?<![.\w])NAME(?![\w])` — the previous character (when any) is neither `.`
nor a word character, `g` occurs here, and the next character (when any) is
not a word character. -/
def bareAt (g : List Char) (prev : Option Char) (l : List Char) : Bool :=
  (match prev with
   | none => true
   | some c => !(c = '.' || isWordChar c)) &&
  g.isPrefixOf l &&
  (match l.drop g.length with
   | [] => true
   | c :: _ => !isWordChar c)

/-- Scan for a bare-word occurrence, carrying the previous character. -/
def bareWordOccursAux (g : List Char) : Option Char → List Char → Bool
  | _, [] => false
  | prev, c :: rest => bareAt g prev (c :: rest) || bareWordOccursAux g (some c) rest

/-- Does the per-global pattern of `executeJavaScriptCode` — the regex
`(?<![.\w])` + g + `(?![\w])` — match somewhere in `code`? -/
def bareWordOccurs (g : List Char) (code : List Char) : Bool :=
  bareWordOccursAux g none code

/-- The first blocked global referenced as a bare word in the script, in the
order the source iterates `blockedGlobals`. -/
def blockedGlobalHit (code : List Char) : Option (List Char) :=
  blockedGlobals.find? (fun g => bareWordOccurs g code)

/-- Function `ExecutionAgent.executeJavaScriptCode`: the textual denylist check, then
evaluation of the script inside the restricted scope (the `new Function`
construction and call, modelled by the opaque-to-this-analysis `evalFn`).
The second component records whether evaluation was attempted. -/
def executeJavaScriptCode {Row : Type}
    (evalFn : List Char → Except String (List Row)) (code : List Char)
    (executionTime : Nat) :
    Except String (ExecutionResult Row) × Bool :=
  match blockedGlobalHit code with
  | some g =>
      (.error ("Access to '" ++ String.mk g ++ "' is not allowed in sandbox"), false)
  | none =>
      match evalFn code with
      | .ok result =>
          (.ok { success := true, data := some result, error := none,
                 executionTime := executionTime }, true)
      | .error e =>
          (.error ("JavaScript execution failed: " ++ e), true)

/-- The bindings the `new Function` preamble of `executeJavaScriptCode`
shadows with `const NAME = undefined;`
(`src/backend/src/agents/ExecutionAgent.ts` lines 212-217). -/
def sandboxShadowedBindings : List (List Char) :=
  ["require".data, "process".data, "global".data, "globalThis".data,
   "fetch".data]

/-- A name resolvable inside the restricted evaluation scope. -/
inductive SandboxBinding where
  | undef
  | fetchDataFn
  | sqlFn
  | dataObj
  | consoleObj
  deriving DecidableEq

/-- The restricted scope of the `new Function` call: the four parameters
`fetchData`, `sql`, `data`, `console`, then the shadowed `const` bindings;
every other name resolves in the enclosing (global) scope, i.e. is NOT
shadowed (`none`). -/
def sandboxScope (name : List Char) : Option SandboxBinding :=
  if name = "fetchData".data then some .fetchDataFn
  else if name = "sql".data then some .sqlFn
  else if name = "data".data then some .dataObj
  else if name = "console".data then some .consoleObj
  else if name ∈ sandboxShadowedBindings then some .undef
  else none
/-- The `code.toLowerCase().includes('limit')` check of
`CodeGenerationAgent.generate` (`src/backend/src/agents/CodeGenerationAgent.ts`
line 91): true iff the lowercased statement text contains the substring
`limit` anywhere, identifiers included. -/
def containsLimitSubstring (code : List Char) : Bool :=
  anySuffix (("limit".data).isPrefixOf) (code.map Char.toLower)

/-- Drop the trailing run of `\s` characters. -/
def dropTrailingWs (l : List Char) : List Char :=
  (l.reverse.dropWhile isWsChar).reverse

/-- The text the first (leftmost) match of `/;?\s*$/` replaces: the trailing
whitespace run together with one `;` right before it when present. This
function returns the statement with that match removed. -/
def stripStatementEnd (l : List Char) : List Char :=
  match (l.reverse.dropWhile isWsChar) with
  | ';' :: rest => rest.reverse
  | other => other.reverse

/-- The replacement text ` LIMIT ${maxRows};` of
`CodeGenerationAgent.generate` line 92. -/
def limitReplacement (maxRows : Nat) : List Char :=
  (" LIMIT ".data) ++ (Nat.repr maxRows).data ++ [';']

/-- Code languages of `CodeGenerationOutput.language`. -/
inductive CodeLanguage where
  | sql
  | javascript
  deriving DecidableEq

/-- The post-processing step of `CodeGenerationAgent.generate` lines 90-93:
when the generated artifact is SQL and its lowercased text does not contain
the substring `limit`, `code.replace(/;?\s*$/, ` + ` LIMIT ${maxRows};` + `)`
is applied; otherwise the code is returned as extracted. -/
def applyLimitRule (language : CodeLanguage) (maxRows : Nat) (code : List Char) :
    List Char :=
  match language with
  | .sql =>
      if containsLimitSubstring code then code
      else stripStatementEnd code ++ limitReplacement maxRows
  | .javascript => code

/-- Occurrence of `w` as a whole word (both neighbours, when present, are
non-word characters) — the natural reading of the statement "containing a
row-limiting clause" as a `LIMIT` keyword occurrence. Modelled from the
spec: the spec speaks of a "row-limiting clause", which the source never
detects as such; this definition exists only to compare the spec's claim
with the source's substring check. -/
def wordAt (w : List Char) (prev : Option Char) (l : List Char) : Bool :=
  (match prev with
   | none => true
   | some c => !isWordChar c) &&
  w.isPrefixOf l &&
  (match l.drop w.length with
   | [] => true
   | c :: _ => !isWordChar c)

/-- Scan for a whole-word occurrence, carrying the previous character. -/
def wordOccursAux (w : List Char) : Option Char → List Char → Bool
  | _, [] => false
  | prev, c :: rest => wordAt w prev (c :: rest) || wordOccursAux w (some c) rest

/-- Modelled from the spec: a statement "contains a row-limiting clause" when
the keyword `LIMIT` occurs in it as a whole word (case-insensitively). The
source has no such definition — `CodeGenerationAgent.generate` only checks
for the substring `limit` — so this spec-side predicate is used to state and
refute the spec's round-trip claim. -/
def hasRowLimitingClause (code : List Char) : Bool :=
  wordOccursAux ("LIMIT".data) none (code.map Char.toUpper)

/-- Structure `AgentRunResult` of the ADK `Agent` module: the result shape
every `executeTool` call produces. -/
structure AgentRunResult (α : Type) where
  success : Bool
  output : Option α
  error : Option String
  executionTime : Nat
  agentName : String
  timestamp : Nat

/-- A registered tool, `ToolDefinition` of the ADK `Agent` module. The zod
`parse` calls (which throw on mismatch) are modelled as `Except`-valued
validators; a handler fault is an `Except.error`. -/
structure ToolDefinition (Input ValidInput Output : Type) where
  name : String
  description : String
  inputSchema : Input → Except String ValidInput
  outputSchema : Option (Output → Except String Unit)
  handler : ValidInput → Except String Output

/-- A failure `AgentRunResult` as built by `executeTool`'s early return and
catch branch: no output, the message, the stamps. -/
def failureRunResult (α : Type) (e : String) (agentName : String)
    (t0 t1 : Nat) : AgentRunResult α :=
  { success := false, output := none, error := some e,
    executionTime := t1 - t0, agentName := agentName, timestamp := t1 }

/-- Function `Agent.executeTool` of the ADK `Agent` module: look the tool up
by name, validate the input, run the handler, validate the output when an
output schema is declared; every fault is caught and converted to a failure
result, and every result carries the elapsed time, the agent name and a
timestamp. `t0` is the `Date.now()` at entry and `t1` the one at exit. -/
def executeTool {Input ValidInput Output : Type}
    (tools : List (String × ToolDefinition Input ValidInput Output))
    (agentName : String) (toolName : String) (input : Input)
    (t0 t1 : Nat) : AgentRunResult Output :=
  match tools.lookup toolName with
  | none =>
      failureRunResult Output ("Tool '" ++ toolName ++ "' not found") agentName t0 t1
  | some tool =>
      match tool.inputSchema input with
      | .error e => failureRunResult Output e agentName t0 t1
      | .ok validatedInput =>
          match tool.handler validatedInput with
          | .error e => failureRunResult Output e agentName t0 t1
          | .ok output =>
              match tool.outputSchema with
              | some schema =>
                  match schema output with
                  | .error e => failureRunResult Output e agentName t0 t1
                  | .ok _ =>
                      { success := true, output := some output, error := none,
                        executionTime := t1 - t0, agentName := agentName,
                        timestamp := t1 }
              | none =>
                  { success := true, output := some output, error := none,
                    executionTime := t1 - t0, agentName := agentName,
                    timestamp := t1 }

/-- JavaScript `a || b` on an optional string: an absent or empty string is
falsy and yields the default. -/
def jsOrStr (v : Option String) (d : String) : String :=
  match v with
  | some s => if s.isEmpty then d else s
  | none => d

/-- JavaScript `a || b` on an optional number: an absent or zero value is
falsy and yields the default (so `config?.maxIterations || 3` turns 0 into 3). -/
def jsOrNat (v : Option Nat) (d : Nat) : Nat :=
  match v with
  | some n => if n = 0 then d else n
  | none => d

/-- JavaScript template interpolation of a possibly-undefined string:
`${undefined}` renders as the text `undefined`. -/
def jsTemplateOptStr : Option String → String
  | some s => s
  | none => "undefined"

/-- Structure `QueryUnderstandingOutput` (the `classify` tool's output shape). -/
structure QueryUnderstandingOutput where
  requiresDatabase : Bool
  shouldVisualize : Bool
  intent : String
  chatResponse : Option String

/-- Structure `CodeGenerationOutput` of `src/backend/src/agents/types.ts`. -/
structure CodeGenerationOutput where
  code : List Char
  language : CodeLanguage
  requiresVisualization : Bool

/-- Structure `ReasoningOutput` of `src/backend/src/agents/types.ts`. -/
structure ReasoningOutput where
  explanation : String
  insights : List String

/-- Structure `EvaluationOutput` (the `evaluate` tool's output shape). -/
structure EvaluationOutput where
  satisfiesQuery : Bool
  reason : String
  suggestedRefinement : Option String

/-- Structure `VisualizationSpec` of `src/backend/src/agents/types.ts`
(the optional raw `data` payload is not read by the orchestrator and is
omitted). -/
structure VisualizationSpec where
  type : String
  title : String
  xAxis : Option String
  yAxis : Option String

/-- Structure `ChartGenerationOutput` (the `generateChart` tool's output). -/
structure ChartGenerationOutput where
  visualizationSpec : VisualizationSpec

/-- A column of `TableSchema` (postgres adapter). -/
structure ColumnSchema where
  name : String
  dataType : String
  nullable : Bool

/-- A table of `SchemaMetadata` (postgres adapter). -/
structure TableSchema where
  name : String
  columns : List ColumnSchema
  rowCount : Nat

/-- Structure `SchemaMetadata` of the postgres adapter. -/
structure SchemaMetadata where
  tables : List TableSchema
  lastUpdated : Nat

/-- Structure `IterationInfo` of `AgentOrchestrator.ts`. -/
structure IterationInfo where
  iteration : Nat
  refinementContext : Option String
  evaluation : Option EvaluationOutput

/-- The stage payloads the orchestrator pushes onto `state.responses`. -/
inductive StageOutput (Row : Type) where
  | understanding (o : QueryUnderstandingOutput)
  | chatMessage (message : String)
  | generation (o : CodeGenerationOutput)
  | execution (o : ExecutionResult Row)
  | reasoning (o : ReasoningOutput)

/-- Structure `AgentResponse` of `src/backend/src/agents/types.ts` as the
orchestrator uses it. -/
structure AgentResponse (Row : Type) where
  stage : String
  output : StageOutput Row
  timestamp : Nat

/-- The chat-path `finalResult` object literal of `processQuery`
(`AgentOrchestrator.ts` lines 181-189). -/
structure ChatFinal (Row : Type) where
  data : List Row
  explanation : String
  insights : List String
  executionTime : Nat
  requiresVisualization : Bool
  iterations : Nat
  isChat : Bool

/-- The loop-exit `finalResult` object literal of `processQuery`
(`AgentOrchestrator.ts` lines 377-386). -/
structure AssembledFinal (Row : Type) where
  data : Option (List Row)
  explanation : String
  insights : List String
  executionTime : Nat
  requiresVisualization : Bool
  visualizationSpec : Option VisualizationSpec
  iterations : Nat
  iterationHistory : List IterationInfo

/-- The values `state.finalResult` takes: `null` until loop exit, an
`{error}` object on terminal failure, the chat reply object, or the
assembled result. -/
inductive FinalResult (Row : Type) where
  | null
  | errorResult (error : Option String)
  | chat (f : ChatFinal Row)
  | assembled (f : AssembledFinal Row)

/-- The `iterations` field carried by a non-null, non-error `finalResult`. -/
def FinalResult.iterationsField {Row : Type} : FinalResult Row → Option Nat
  | .chat f => some f.iterations
  | .assembled f => some f.iterations
  | _ => none

/-- Structure `OrchestrationState` of `AgentOrchestrator.ts`. -/
structure OrchestrationState (Row : Type) where
  query : String
  schemaMetadata : SchemaMetadata
  responses : List (AgentResponse Row)
  finalResult : FinalResult Row
  iterations : Nat
  iterationHistory : List IterationInfo

/-- The results the surrounding agents hand one pass of the refinement loop:
the `executeTool` results of the generate, execute, reason, evaluate and
generateChart calls. The text-completion capability behind them is opaque,
so a run of `processQuery` is parametrised by one oracle bundle per pass. -/
structure IterOracle (Row : Type) where
  codeResult : AgentRunResult CodeGenerationOutput
  executionResult : AgentRunResult (ExecutionResult Row)
  reasoningResult : AgentRunResult ReasoningOutput
  evaluationResult : AgentRunResult EvaluationOutput
  chartResult : AgentRunResult ChartGenerationOutput

/-- The loop-scope mutable variables of `processQuery` lines 221-225. -/
structure LoopVars (Row : Type) where
  refinementContext : Option String
  lastExecutionOutput : Option (ExecutionResult Row)
  lastReasoningOutput : Option ReasoningOutput
  lastCodeOutput : Option CodeGenerationOutput
  visualizationSpec : Option VisualizationSpec

/-- How one pass of the `while` body ends: `terminal` is a mid-loop `return
state` with `finalResult` set to an error, `exitLoop` is `break`, `next` is
`continue` or falling through to the next pass. -/
inductive LoopStep (Row : Type) where
  | terminal (st : OrchestrationState Row)
  | exitLoop (st : OrchestrationState Row) (vars : LoopVars Row)
  | next (st : OrchestrationState Row) (vars : LoopVars Row)

/-- The `codeResult.output || {...}` fallback of lines 249-253. -/
def defaultCodeOutput : CodeGenerationOutput :=
  { code := [], language := .sql, requiresVisualization := false }

/-- The `executionResult.output || {...}` fallback of lines 277-281. -/
def defaultExecutionOutput {Row : Type} : ExecutionResult Row :=
  { success := false, data := none, error := some ("Execution failed"),
    executionTime := 0 }

/-- The `reasoningResult.output || {...}` fallback of lines 311-314. -/
def defaultReasoningOutput : ReasoningOutput :=
  { explanation := "Unable to generate explanation.", insights := [] }

/-- The `evaluationResult.output || {...}` fallback of lines 333-336. -/
def defaultEvaluationOutput : EvaluationOutput :=
  { satisfiesQuery := true, reason := "Evaluation completed",
    suggestedRefinement := none }

/-- The `understandingResult.output || {...}` fallback of lines 157-161. -/
def defaultUnderstandingOutput : QueryUnderstandingOutput :=
  { requiresDatabase := true, shouldVisualize := false, intent := "unknown",
    chatResponse := none }

/-- The canned chat reply used when the classifier supplies none. -/
def chatFallbackMessage : String :=
  "I'm here to help you analyze your data. Ask me anything about your database!"

/-- Effective code-generation output of one pass (after the `||` fallback). -/
def effectiveCodeOutput {Row : Type} (o : IterOracle Row) : CodeGenerationOutput :=
  o.codeResult.output.getD defaultCodeOutput

/-- Effective execution output of one pass (after the `||` fallback). -/
def effectiveExecutionOutput {Row : Type} (o : IterOracle Row) : ExecutionResult Row :=
  o.executionResult.output.getD defaultExecutionOutput

/-- Effective reasoning output of one pass (after the `||` fallback). -/
def effectiveReasoningOutput {Row : Type} (o : IterOracle Row) : ReasoningOutput :=
  o.reasoningResult.output.getD defaultReasoningOutput

/-- Effective evaluation output of one pass (after the `||` fallback). -/
def effectiveEvaluationOutput {Row : Type} (o : IterOracle Row) : EvaluationOutput :=
  o.evaluationResult.output.getD defaultEvaluationOutput

/-- The refinement hint set after a failed execution (line 293). -/
def executionFailureRefinement (err : Option String) : String :=
  "Previous SQL execution failed with error: " ++ jsTemplateOptStr err ++
    ". Please fix the query."

/-- The generic refinement hint set after an unsatisfied evaluation
(lines 370-371). -/
def unsatisfiedRefinement (reason : String) : String :=
  "The previous result did not fully satisfy the query. Reason: " ++ reason ++
    ". Please generate a better query."

/-- Truthiness of `lastExecutionOutput?.data && lastExecutionOutput.data.length > 0`. -/
def execDataNonempty {Row : Type} (e : ExecutionResult Row) : Bool :=
  match e.data with
  | some d => decide (0 < d.length)
  | none => false

/-- One pass of the `while (state.iterations < this.maxIterations)` body of
`processQuery` (`AgentOrchestrator.ts` lines 227-374), entered only when the
guard holds: bump the counter, run Generate (terminal on failure), Execute
(on failure: retry with a refinement hint when iterations remain, else
terminal), Reason, Evaluate, record the iteration, then break (with optional
chart generation) or continue with a refinement hint. -/
def loopBody {Row : Type} (shouldVisualize : Bool) (maxIterations : Nat)
    (o : IterOracle Row) (st : OrchestrationState Row) (vars : LoopVars Row) :
    LoopStep Row :=
  let st1 : OrchestrationState Row := { st with iterations := st.iterations + 1 }
  let iterationInfo : IterationInfo :=
    { iteration := st1.iterations, refinementContext := vars.refinementContext,
      evaluation := none }
  let lastCodeOutput := effectiveCodeOutput o
  let st2 : OrchestrationState Row :=
    { st1 with responses := st1.responses ++
        [{ stage := "generation", output := .generation lastCodeOutput,
           timestamp := o.codeResult.timestamp }] }
  if o.codeResult.success = false then
    .terminal { st2 with finalResult := .errorResult o.codeResult.error }
  else
    let lastExecutionOutput := effectiveExecutionOutput o
    let st3 : OrchestrationState Row :=
      { st2 with responses := st2.responses ++
          [{ stage := "execution", output := .execution lastExecutionOutput,
             timestamp := o.executionResult.timestamp }] }
    if lastExecutionOutput.success = false then
      if st3.iterations < maxIterations then
        .next { st3 with iterationHistory := st3.iterationHistory ++ [iterationInfo] }
          { vars with
              refinementContext :=
                some (executionFailureRefinement lastExecutionOutput.error),
              lastCodeOutput := some lastCodeOutput,
              lastExecutionOutput := some lastExecutionOutput }
      else
        .terminal { st3 with finalResult := .errorResult lastExecutionOutput.error }
    else
      let lastReasoningOutput := effectiveReasoningOutput o
      let st4 : OrchestrationState Row :=
        { st3 with responses := st3.responses ++
            [{ stage := "reasoning", output := .reasoning lastReasoningOutput,
               timestamp := o.reasoningResult.timestamp }] }
      let evaluationOutput := effectiveEvaluationOutput o
      let st5 : OrchestrationState Row :=
        { st4 with iterationHistory := st4.iterationHistory ++
            [{ iterationInfo with evaluation := some evaluationOutput }] }
      let vars1 : LoopVars Row :=
        { vars with lastCodeOutput := some lastCodeOutput,
                    lastExecutionOutput := some lastExecutionOutput,
                    lastReasoningOutput := some lastReasoningOutput }
      if evaluationOutput.satisfiesQuery || decide (maxIterations ≤ st5.iterations) then
        let vars2 : LoopVars Row :=
          if shouldVisualize && execDataNonempty lastExecutionOutput then
            match o.chartResult.success, o.chartResult.output with
            | true, some chartOutput =>
                { vars1 with visualizationSpec := some chartOutput.visualizationSpec }
            | _, _ => vars1
          else vars1
        .exitLoop st5 vars2
      else
        .next st5
          { vars1 with
              refinementContext :=
                some (jsOrStr evaluationOutput.suggestedRefinement
                  (unsatisfiedRefinement evaluationOutput.reason)) }

/-- The `while (state.iterations < this.maxIterations)` loop. The fuel
argument only bounds the recursion: each executed pass increments
`st.iterations` by one, so fuel `maxIterations - st.iterations` (wherefore
`maxIterations` from the loop's entry) never runs out before the guard
fails. The third component of the result tells whether the loop ended in a
mid-loop `return` (`LoopStep.terminal`). -/
def runLoopAux {Row : Type} (shouldVisualize : Bool) (maxIterations : Nat)
    (oracle : Nat → IterOracle Row) :
    Nat → OrchestrationState Row → LoopVars Row →
    OrchestrationState Row × LoopVars Row × Bool
  | 0, st, vars => (st, vars, false)
  | Nat.succ fuel, st, vars =>
    if st.iterations < maxIterations then
      match loopBody shouldVisualize maxIterations (oracle st.iterations) st vars with
      | .terminal st1 => (st1, vars, true)
      | .exitLoop st1 vars1 => (st1, vars1, false)
      | .next st1 vars1 => runLoopAux shouldVisualize maxIterations oracle fuel st1 vars1
    else (st, vars, false)

/-- The assembled `state.finalResult` of lines 377-386. -/
def assembleFinal {Row : Type} (st : OrchestrationState Row) (vars : LoopVars Row) :
    AssembledFinal Row :=
  { data := vars.lastExecutionOutput.bind (fun e => e.data),
    explanation :=
      jsOrStr (vars.lastReasoningOutput.map (fun r => r.explanation))
        "No explanation available",
    insights := (vars.lastReasoningOutput.map (fun r => r.insights)).getD [],
    executionTime := (vars.lastExecutionOutput.map (fun e => e.executionTime)).getD 0,
    requiresVisualization :=
      (vars.lastCodeOutput.map (fun c => c.requiresVisualization)).getD false,
    visualizationSpec := vars.visualizationSpec,
    iterations := st.iterations,
    iterationHistory := st.iterationHistory }

/-- Function `AgentOrchestrator.processQuery` (lines 142-389). The
classification result comes in as an `AgentRunResult`; `dbAdapter` is the
optional configured adapter, modelled by the catalog snapshot its
`getSchemaMetadata` would return; `oracle n` bundles the agent results of
pass `n` (0-based); `maxIterationsCfg` is `config?.maxIterations` (the `|| 3`
fallback of the constructor is applied here); `now` stands for `new Date()`
in the chat path. Returns `Except.error` for the `throw` on a data query
without a configured adapter, and otherwise the final state together with a
flag telling whether the schema catalog was fetched from the adapter. -/
def processQuery {Row : Type} (userQuery : String)
    (understandingResult : AgentRunResult QueryUnderstandingOutput)
    (dbAdapter : Option SchemaMetadata) (oracle : Nat → IterOracle Row)
    (maxIterationsCfg : Option Nat) (now : Nat) :
    Except String (OrchestrationState Row × Bool) :=
  let maxIterations := jsOrNat maxIterationsCfg 3
  let understandingOutput := understandingResult.output.getD defaultUnderstandingOutput
  if understandingOutput.requiresDatabase = false then
    .ok ({ query := userQuery,
           schemaMetadata := { tables := [], lastUpdated := now },
           responses :=
             [{ stage := "understanding",
                output := .understanding understandingOutput,
                timestamp := understandingResult.timestamp },
              { stage := "chat",
                output := .chatMessage
                  (jsOrStr understandingOutput.chatResponse chatFallbackMessage),
                timestamp := now }],
           finalResult := .chat
             { data := ([] : List Row),
               explanation :=
                 jsOrStr understandingOutput.chatResponse chatFallbackMessage,
               insights := [], executionTime := 0,
               requiresVisualization := false, iterations := 0, isChat := true },
           iterations := 0, iterationHistory := [] }, false)
  else
    match dbAdapter with
    | none => .error "Database not configured. Please configure the database connection first."
    | some schema =>
        let st0 : OrchestrationState Row :=
          { query := userQuery, schemaMetadata := schema,
            responses :=
              [{ stage := "understanding",
                 output := .understanding understandingOutput,
                 timestamp := understandingResult.timestamp }],
            finalResult := .null, iterations := 0, iterationHistory := [] }
        let vars0 : LoopVars Row :=
          { refinementContext := none, lastExecutionOutput := none,
            lastReasoningOutput := none, lastCodeOutput := none,
            visualizationSpec := none }
        match runLoopAux understandingOutput.shouldVisualize maxIterations oracle
            maxIterations st0 vars0 with
        | (st, _, true) => .ok (st, true)
        | (st, vars, false) =>
            .ok ({ st with finalResult := .assembled (assembleFinal st vars) }, true)

/-- Number of `state.responses` entries pushed with the given stage tag. -/
def countStage {Row : Type} (stage : String) (responses : List (AgentResponse Row)) : Nat :=
  (responses.filter (fun r => r.stage == stage)).length

/-- Every recorded Evaluate outcome of the run was unsatisfied (an iteration
recorded without an evaluation does not count against it). -/
def allEvalsUnsatisfied (history : List IterationInfo) : Bool :=
  history.all (fun i =>
    match i.evaluation with
    | some e => !e.satisfiesQuery
    | none => true)

/-- The state carried by any of the three `LoopStep` outcomes. -/
def stepState {Row : Type} : LoopStep Row → OrchestrationState Row
  | .terminal s => s
  | .exitLoop s _ => s
  | .next s _ => s

/-- Fixture: a successful `AgentRunResult` with the given output. -/
def okRunResult {α : Type} (a : α) : AgentRunResult α :=
  { success := true, output := some a, error := none, executionTime := 3,
    agentName := "agent", timestamp := 10 }

/-- Fixture: a failed `AgentRunResult` with the given error text. -/
def failRunResult (α : Type) (e : String) : AgentRunResult α :=
  { success := false, output := none, error := some e, executionTime := 3,
    agentName := "agent", timestamp := 10 }

/-- Fixture: a classification that requires the database. -/
def fixtureUnderstandingData : AgentRunResult QueryUnderstandingOutput :=
  okRunResult
    { requiresDatabase := true, shouldVisualize := false, intent := "analysis",
      chatResponse := none }

/-- Fixture: a conversational classification. -/
def fixtureUnderstandingChat : AgentRunResult QueryUnderstandingOutput :=
  okRunResult
    { requiresDatabase := false, shouldVisualize := false, intent := "greeting",
      chatResponse := some ("Hello! How can I help with your data?") }

/-- Fixture: a small catalog snapshot. -/
def fixtureSchema : SchemaMetadata :=
  { tables := [{ name := "users",
                 columns := [{ name := "id", dataType := "integer", nullable := false }],
                 rowCount := 7 }],
    lastUpdated := 0 }

/-- Fixture: a pass whose stages all succeed but whose evaluation is
unsatisfied. -/
def fixtureIterUnsat : IterOracle Nat :=
  { codeResult := okRunResult
      { code := ("SELECT id FROM users".data), language := .sql,
        requiresVisualization := false },
    executionResult := okRunResult
      { success := true, data := some [1], error := none, executionTime := 5 },
    reasoningResult := okRunResult { explanation := "One row.", insights := [] },
    evaluationResult := okRunResult
      { satisfiesQuery := false, reason := "row set too small",
        suggestedRefinement := some ("broaden the filter") },
    chartResult := failRunResult ChartGenerationOutput "no chart" }

/-- Fixture: a pass whose stages all succeed and whose evaluation is
satisfied. -/
def fixtureIterSat : IterOracle Nat :=
  { codeResult := okRunResult
      { code := ("SELECT count(1) FROM users".data), language := .sql,
        requiresVisualization := false },
    executionResult := okRunResult
      { success := true, data := some [7], error := none, executionTime := 5 },
    reasoningResult := okRunResult
      { explanation := "There are 7 rows.", insights := [] },
    evaluationResult := okRunResult
      { satisfiesQuery := true, reason := "answers the question",
        suggestedRefinement := none },
    chartResult := failRunResult ChartGenerationOutput "no chart" }

/-- Fixture: a pass whose code generation fails. -/
def fixtureIterGenFail : IterOracle Nat :=
  { codeResult := failRunResult CodeGenerationOutput "LLM returned empty response",
    executionResult := failRunResult (ExecutionResult Nat) "not reached",
    reasoningResult := failRunResult ReasoningOutput "not reached",
    evaluationResult := failRunResult EvaluationOutput "not reached",
    chartResult := failRunResult ChartGenerationOutput "not reached" }

/-- Fixture: a pass whose code generation succeeds and whose execution
fails. -/
def fixtureIterExecFail : IterOracle Nat :=
  { codeResult := okRunResult
      { code := ("SELEC id FROM users".data), language := .sql,
        requiresVisualization := false },
    executionResult := okRunResult
      { success := false, data := none,
        error := some ("syntax error at or near SELEC"), executionTime := 2 },
    reasoningResult := failRunResult ReasoningOutput "not reached",
    evaluationResult := failRunResult EvaluationOutput "not reached",
    chartResult := failRunResult ChartGenerationOutput "not reached" }

/-- Fixture oracle: first pass unsatisfied, second pass generation failure. -/
def unsatThenGenFailOracle : Nat → IterOracle Nat
  | 0 => fixtureIterUnsat
  | _ => fixtureIterGenFail

/-- Fixture oracle: every pass satisfied. -/
def allSatOracle : Nat → IterOracle Nat :=
  fun _ => fixtureIterSat

/-- Fixture run: a data query under `unsatThenGenFailOracle` with the default
iteration ceiling. -/
def unsatThenGenFailRun : Except String (OrchestrationState Nat × Bool) :=
  processQuery "list users" fixtureUnderstandingData (some fixtureSchema)
    unsatThenGenFailOracle none 0

/-- Fixture: an empty orchestration state, as at loop entry. -/
def fixtureState0 : OrchestrationState Nat :=
  { query := "count rows", schemaMetadata := fixtureSchema, responses := [],
    finalResult := .null, iterations := 0, iterationHistory := [] }

/-- Fixture: the initial loop variables. -/
def fixtureVars0 : LoopVars Nat :=
  { refinementContext := none, lastExecutionOutput := none,
    lastReasoningOutput := none, lastCodeOutput := none,
    visualizationSpec := none }

/-- Fixture: a transformation script that references `processed` (a longer
identifier containing the blocked name `process`) but no blocked capability
as a bare word. -/
def processedScript : List Char :=
  ("const processed = data.filter(r => r.ok); return processed;".data)

/-- The initial `OrchestrationState` a data query starts the loop with
(`AgentOrchestrator.ts` lines 201-214, after the understanding push). -/
def initialState {Row : Type} (userQuery : String) (schema : SchemaMetadata)
    (understandingOutput : QueryUnderstandingOutput) (ts : Nat) :
    OrchestrationState Row :=
  { query := userQuery, schemaMetadata := schema,
    responses := [{ stage := "understanding",
                    output := .understanding understandingOutput, timestamp := ts }],
    finalResult := .null, iterations := 0, iterationHistory := [] }

/-- The initial loop-scope variables (`AgentOrchestrator.ts` lines 221-225). -/
def initialVars (Row : Type) : LoopVars Row :=
  { refinementContext := none, lastExecutionOutput := none,
    lastReasoningOutput := none, lastCodeOutput := none,
    visualizationSpec := none }

/-- C1: a SQL execute invocation whose statement text matches any of the ten
case-insensitive denylist patterns fails with the unsafe-statement error and
passes nothing to the persistent-store adapter's query function (the call
log stays empty), whether or not an adapter is configured. -/
theorem sqlGate_denylisted_never_reaches_adapter {Row : Type}
    (dbAdapter : Option (List Char → List Row)) (code : List Char) (t : Nat)
    (h : forbiddenPatternsMatch code = true) :
    executeSQLCode dbAdapter code t = (.error dangerousSQLError, []) := by
  simp [executeSQLCode, h]

/-- Witness for C1: the mixed-case statement `DrOp TaBlE users` is denylisted
and rejected without an adapter call, even with an adapter configured. -/
theorem sqlGate_denylisted_never_reaches_adapter_witness :
    executeSQLCode (some (fun _ => ([0] : List Nat))) ("DrOp TaBlE users".data) 7 =
      (.error dangerousSQLError, []) :=
  sqlGate_denylisted_never_reaches_adapter _ _ _ (by decide)

/-- C9: with an adapter configured, the SQL gate rejects a statement exactly
when one of the ten regexes matches anywhere in the text (no word
boundaries), and otherwise sends exactly that statement to the adapter.
Consequently a read-only SELECT mentioning `granted` (matching `/GRANT/i`)
or `truncated_at` (matching `/TRUNCATE/i`) is rejected, while `DROP INDEX`
and a `DELETE` without `FROM` pass the gate. -/
theorem sqlGate_regex_iff :
    (∀ (Row : Type) (executeQuery : List Char → List Row) (code : List Char) (t : Nat),
      executeSQLCode (some executeQuery) code t =
        if forbiddenPatternsMatch code then (.error dangerousSQLError, [])
        else (.ok { success := true, data := some (executeQuery code), error := none,
                    executionTime := t }, [code])) ∧
    forbiddenPatternsMatch ("SELECT granted FROM permissions".data) = true ∧
    forbiddenPatternsMatch ("SELECT truncated_at FROM logs".data) = true ∧
    forbiddenPatternsMatch ("DROP INDEX idx_users".data) = false ∧
    forbiddenPatternsMatch ("DELETE users WHERE id = 1".data) = false := by
  refine ⟨fun Row executeQuery code t => ?_, by decide, by decide, by decide, by decide⟩
  unfold executeSQLCode
  split <;> rfl

/-- C3: a JavaScript execute invocation whose script references a blocked
capability as a bare word is rejected before any evaluation of the script
(the evaluation flag stays false), while a script referencing such a name
only inside a longer identifier (`processed`) passes the textual check and
is evaluated. -/
theorem jsGate_bare_word_check :
    (∀ (Row : Type) (evalFn : List Char → Except String (List Row))
       (code : List Char) (t : Nat) (g : List Char),
      blockedGlobalHit code = some g →
      executeJavaScriptCode evalFn code t =
        (.error ("Access to '" ++ String.mk g ++ "' is not allowed in sandbox"),
         false)) ∧
    blockedGlobalHit ("return process.env;".data) = some ("process".data) ∧
    blockedGlobalHit processedScript = none ∧
    (∀ (Row : Type) (evalFn : List Char → Except String (List Row)) (t : Nat),
      (executeJavaScriptCode evalFn processedScript t).2 = true) := by
  refine ⟨fun Row evalFn code t g h => ?_, by decide, by decide,
    fun Row evalFn t => ?_⟩
  · simp [executeJavaScriptCode, h]
  · unfold executeJavaScriptCode
    rw [show blockedGlobalHit processedScript = none from by decide]
    cases evalFn processedScript <;> rfl

/-- Counterexample for C4: `Buffer` is on the blocked-capability list, yet
the restricted scope does not shadow it — its name resolves in the enclosing
scope, so the claimed shadowing of every blocked binding is false. -/
theorem sandboxShadowing_incomplete_cex :
    ("Buffer".data) ∈ blockedGlobals ∧ sandboxScope ("Buffer".data) = none := by
  decide

/-- C4 (amended): only `require`, `process`, `global`, `globalThis` and
`fetch` are shadowed to an inert value inside the restricted scope; every
other blocked capability identifier is not shadowed there and is kept out
only by the textual denylist check. -/
theorem sandboxShadowing_actual :
    (∀ g, g ∈ sandboxShadowedBindings → sandboxScope g = some SandboxBinding.undef) ∧
    (∀ g, g ∈ sandboxShadowedBindings → g ∈ blockedGlobals) ∧
    sandboxShadowedBindings =
      ["require".data, "process".data, "global".data, "globalThis".data,
       "fetch".data] ∧
    (∀ g, g ∈ blockedGlobals → ¬g ∈ sandboxShadowedBindings → sandboxScope g = none) := by
  refine ⟨by decide, by decide, by decide, by decide⟩

/-- Counterexample for C7: `SELECT limit_price FROM products` contains no
row-limiting clause (no whole-word `LIMIT` keyword), yet the generation step
returns it unmodified — no `LIMIT` ceiling is appended — because the check
only looks for the substring `limit`, which `limit_price` contains. -/
theorem limitRule_substring_cex :
    hasRowLimitingClause ("SELECT limit_price FROM products".data) = false ∧
    containsLimitSubstring ("SELECT limit_price FROM products".data) = true ∧
    applyLimitRule CodeLanguage.sql 500 ("SELECT limit_price FROM products".data) =
      ("SELECT limit_price FROM products".data) := by
  refine ⟨by decide, by decide, ?_⟩
  unfold applyLimitRule
  rw [show containsLimitSubstring ("SELECT limit_price FROM products".data) = true from by decide]
  rfl

/-- C7 (amended): a generated SQL statement whose lowercased text does not
contain the substring `limit` is rewritten — the trailing `;?\s*` run is
replaced — so that it ends with ` LIMIT <maxRows>;`; a statement containing
that substring anywhere (keyword or not) is returned unmodified. -/
theorem limitRule_substring_behavior :
    ∀ (maxRows : Nat) (code : List Char),
      (containsLimitSubstring code = true →
        applyLimitRule CodeLanguage.sql maxRows code = code) ∧
      (containsLimitSubstring code = false →
        applyLimitRule CodeLanguage.sql maxRows code =
          stripStatementEnd code ++ limitReplacement maxRows ∧
        limitReplacement maxRows <:+ applyLimitRule CodeLanguage.sql maxRows code) := by
  intro maxRows code
  constructor
  · intro h
    simp [applyLimitRule, h]
  · intro h
    constructor
    · simp [applyLimitRule, h]
    · simp only [applyLimitRule, h]
      exact ⟨stripStatementEnd code, by simp⟩

/-- C2: `Agent.executeTool` is total — for every tool name and input it
returns an `AgentRunResult` (no exception crosses the boundary) in which the
elapsed duration, agent name and timestamp are always stamped; a success
carries an output and no error, a failure carries an error string and no
output; and each of the four fault sources (unknown tool, input-validation
failure, handler fault, output-schema mismatch) yields the corresponding
failure result. -/
theorem executeTool_total_and_stamped :
    ∀ (Input ValidInput Output : Type)
      (tools : List (String × ToolDefinition Input ValidInput Output))
      (agentName toolName : String) (input : Input) (t0 t1 : Nat),
      ((executeTool tools agentName toolName input t0 t1).executionTime = t1 - t0 ∧
       (executeTool tools agentName toolName input t0 t1).agentName = agentName ∧
       (executeTool tools agentName toolName input t0 t1).timestamp = t1) ∧
      (((executeTool tools agentName toolName input t0 t1).success = true ∧
        (executeTool tools agentName toolName input t0 t1).error = none ∧
        (executeTool tools agentName toolName input t0 t1).output.isSome = true) ∨
       ((executeTool tools agentName toolName input t0 t1).success = false ∧
        (executeTool tools agentName toolName input t0 t1).output = none ∧
        (executeTool tools agentName toolName input t0 t1).error.isSome = true)) ∧
      (tools.lookup toolName = none →
        executeTool tools agentName toolName input t0 t1 =
          failureRunResult Output ("Tool '" ++ toolName ++ "' not found")
            agentName t0 t1) ∧
      (∀ tool, tools.lookup toolName = some tool →
        (∀ e, tool.inputSchema input = .error e →
          executeTool tools agentName toolName input t0 t1 =
            failureRunResult Output e agentName t0 t1) ∧
        (∀ vi e, tool.inputSchema input = .ok vi → tool.handler vi = .error e →
          executeTool tools agentName toolName input t0 t1 =
            failureRunResult Output e agentName t0 t1) ∧
        (∀ vi out sch e, tool.inputSchema input = .ok vi →
          tool.handler vi = .ok out → tool.outputSchema = some sch →
          sch out = .error e →
          executeTool tools agentName toolName input t0 t1 =
            failureRunResult Output e agentName t0 t1)) := by
  intro Input ValidInput Output tools agentName toolName input t0 t1
  refine ⟨?_, ?_, ?_, ?_⟩
  · cases h1 : tools.lookup toolName with
    | none => simp [executeTool, h1, failureRunResult]
    | some tool =>
      cases h2 : tool.inputSchema input with
      | error e => simp [executeTool, h1, h2, failureRunResult]
      | ok vi =>
        cases h3 : tool.handler vi with
        | error e => simp [executeTool, h1, h2, h3, failureRunResult]
        | ok out =>
          cases h4 : tool.outputSchema with
          | none => simp [executeTool, h1, h2, h3, h4]
          | some sch =>
            cases h5 : sch out with
            | error e => simp [executeTool, h1, h2, h3, h4, h5, failureRunResult]
            | ok u => simp [executeTool, h1, h2, h3, h4, h5]
  · cases h1 : tools.lookup toolName with
    | none => right; simp [executeTool, h1, failureRunResult]
    | some tool =>
      cases h2 : tool.inputSchema input with
      | error e => right; simp [executeTool, h1, h2, failureRunResult]
      | ok vi =>
        cases h3 : tool.handler vi with
        | error e => right; simp [executeTool, h1, h2, h3, failureRunResult]
        | ok out =>
          cases h4 : tool.outputSchema with
          | none => left; simp [executeTool, h1, h2, h3, h4]
          | some sch =>
            cases h5 : sch out with
            | error e => right; simp [executeTool, h1, h2, h3, h4, h5, failureRunResult]
            | ok u => left; simp [executeTool, h1, h2, h3, h4, h5]
  · intro h1
    simp [executeTool, h1]
  · intro tool h1
    refine ⟨?_, ?_, ?_⟩
    · intro e h2
      simp [executeTool, h1, h2]
    · intro vi e h2 h3
      simp [executeTool, h1, h2, h3]
    · intro vi out sch e h2 h3 h4 h5
      simp [executeTool, h1, h2, h3, h4, h5]

theorem jsOrNat_pos (v : Option Nat) (d : Nat) (hd : 0 < d) : 0 < jsOrNat v d := by
  cases v with
  | none => simpa [jsOrNat]
  | some n =>
    by_cases h : n = 0
    · simpa [jsOrNat, h]
    · simp [jsOrNat, h]
      omega

theorem loopBody_iterations {Row : Type} (sv : Bool) (m : Nat) (o : IterOracle Row)
    (st : OrchestrationState Row) (vars : LoopVars Row) :
    (stepState (loopBody sv m o st vars)).iterations = st.iterations + 1 := by
  cases hc1 : o.codeResult.success with
  | false => simp [loopBody, stepState, hc1]
  | true =>
    cases hc2 : (effectiveExecutionOutput o).success with
    | false =>
      by_cases hc3 : st.iterations + 1 < m
      · simp [loopBody, stepState, hc1, hc2, hc3]
      · simp [loopBody, stepState, hc1, hc2, hc3]
    | true =>
      cases hc4 : (effectiveEvaluationOutput o).satisfiesQuery with
      | true => simp [loopBody, stepState, hc1, hc2, hc4]
      | false =>
        by_cases hc5 : m ≤ st.iterations + 1
        · simp [loopBody, stepState, hc1, hc2, hc4, hc5]
        · simp [loopBody, stepState, hc1, hc2, hc4, hc5]

theorem loopBody_terminal_hist {Row : Type} {sv : Bool} {m : Nat} {o : IterOracle Row}
    {st s : OrchestrationState Row} {vars : LoopVars Row}
    (h : loopBody sv m o st vars = .terminal s) :
    s.iterationHistory = st.iterationHistory ∧ ∃ e, s.finalResult = .errorResult e := by
  cases hc1 : o.codeResult.success with
  | false =>
    simp [loopBody, hc1] at h
    simp [← h]
  | true =>
    cases hc2 : (effectiveExecutionOutput o).success with
    | false =>
      by_cases hc3 : st.iterations + 1 < m
      · simp [loopBody, hc1, hc2, hc3] at h
      · simp [loopBody, hc1, hc2, hc3] at h
        simp [← h]
    | true =>
      cases hc4 : (effectiveEvaluationOutput o).satisfiesQuery with
      | true => simp [loopBody, hc1, hc2, hc4] at h
      | false =>
        by_cases hc5 : m ≤ st.iterations + 1
        · simp [loopBody, hc1, hc2, hc4, hc5] at h
        · simp [loopBody, hc1, hc2, hc4, hc5] at h

theorem countStage_append {Row : Type} (stage : String)
    (a b : List (AgentResponse Row)) :
    countStage stage (a ++ b) = countStage stage a + countStage stage b := by
  simp [countStage, List.filter_append]

theorem loopBody_next_hist {Row : Type} {sv : Bool} {m : Nat} {o : IterOracle Row}
    {st s : OrchestrationState Row} {vars v : LoopVars Row}
    (h : loopBody sv m o st vars = .next s v) :
    s.iterationHistory.length = st.iterationHistory.length + 1 ∧
      s.finalResult = st.finalResult := by
  cases hc1 : o.codeResult.success with
  | false => simp [loopBody, hc1] at h
  | true =>
    cases hc2 : (effectiveExecutionOutput o).success with
    | false =>
      by_cases hc3 : st.iterations + 1 < m
      · simp [loopBody, hc1, hc2, hc3] at h
        obtain ⟨h1, h2⟩ := h
        simp [← h1]
      · simp [loopBody, hc1, hc2, hc3] at h
    | true =>
      cases hc4 : (effectiveEvaluationOutput o).satisfiesQuery with
      | true => simp [loopBody, hc1, hc2, hc4] at h
      | false =>
        by_cases hc5 : m ≤ st.iterations + 1
        · simp [loopBody, hc1, hc2, hc4, hc5] at h
        · simp [loopBody, hc1, hc2, hc4, hc5] at h
          obtain ⟨h1, h2⟩ := h
          simp [← h1]

theorem loopBody_exit_hist {Row : Type} {sv : Bool} {m : Nat} {o : IterOracle Row}
    {st s : OrchestrationState Row} {vars v : LoopVars Row}
    (h : loopBody sv m o st vars = .exitLoop s v) :
    s.iterationHistory.length = st.iterationHistory.length + 1 ∧
      s.finalResult = st.finalResult := by
  cases hc1 : o.codeResult.success with
  | false => simp [loopBody, hc1] at h
  | true =>
    cases hc2 : (effectiveExecutionOutput o).success with
    | false =>
      by_cases hc3 : st.iterations + 1 < m
      · simp [loopBody, hc1, hc2, hc3] at h
      · simp [loopBody, hc1, hc2, hc3] at h
    | true =>
      cases hc4 : (effectiveEvaluationOutput o).satisfiesQuery with
      | true =>
        simp [loopBody, hc1, hc2, hc4] at h
        obtain ⟨h1, h2⟩ := h
        simp [← h1]
      | false =>
        by_cases hc5 : m ≤ st.iterations + 1
        · simp [loopBody, hc1, hc2, hc4, hc5] at h
          obtain ⟨h1, h2⟩ := h
          simp [← h1]
        · simp [loopBody, hc1, hc2, hc4, hc5] at h

theorem loopBody_genCount {Row : Type} (sv : Bool) (m : Nat) (o : IterOracle Row)
    (st : OrchestrationState Row) (vars : LoopVars Row) :
    countStage "generation" (stepState (loopBody sv m o st vars)).responses =
      countStage "generation" st.responses + 1 := by
  have e1 : (("generation" : String) == "generation") = true := by decide
  have e2 : (("execution" : String) == "generation") = false := by decide
  have e3 : (("reasoning" : String) == "generation") = false := by decide
  cases hc1 : o.codeResult.success with
  | false => simp [loopBody, stepState, hc1, countStage_append, countStage, e1, e2, e3]
  | true =>
    cases hc2 : (effectiveExecutionOutput o).success with
    | false =>
      by_cases hc3 : st.iterations + 1 < m
      · simp [loopBody, stepState, hc1, hc2, hc3, countStage_append, countStage, e1, e2, e3]
      · simp [loopBody, stepState, hc1, hc2, hc3, countStage_append, countStage, e1, e2, e3]
    | true =>
      cases hc4 : (effectiveEvaluationOutput o).satisfiesQuery with
      | true => simp [loopBody, stepState, hc1, hc2, hc4, countStage_append, countStage, e1, e2, e3]
      | false =>
        by_cases hc5 : m ≤ st.iterations + 1
        · simp [loopBody, stepState, hc1, hc2, hc4, hc5, countStage_append, countStage, e1, e2, e3]
        · simp [loopBody, stepState, hc1, hc2, hc4, hc5, countStage_append, countStage, e1, e2, e3]

theorem loopBody_terminal_max {Row : Type} {sv : Bool} {m : Nat} {o : IterOracle Row}
    {st s : OrchestrationState Row} {vars : LoopVars Row}
    (hgen : o.codeResult.success = true)
    (h : loopBody sv m o st vars = .terminal s) : m ≤ s.iterations := by
  cases hc2 : (effectiveExecutionOutput o).success with
  | false =>
    by_cases hc3 : st.iterations + 1 < m
    · simp [loopBody, hgen, hc2, hc3] at h
    · simp [loopBody, hgen, hc2, hc3] at h
      simp [← h]
      omega
  | true =>
    cases hc4 : (effectiveEvaluationOutput o).satisfiesQuery with
    | true => simp [loopBody, hgen, hc2, hc4] at h
    | false =>
      by_cases hc5 : m ≤ st.iterations + 1
      · simp [loopBody, hgen, hc2, hc4, hc5] at h
      · simp [loopBody, hgen, hc2, hc4, hc5] at h

theorem loopBody_exit_max {Row : Type} {sv : Bool} {m : Nat} {o : IterOracle Row}
    {st s : OrchestrationState Row} {vars v : LoopVars Row}
    (hunsat : (effectiveEvaluationOutput o).satisfiesQuery = false)
    (h : loopBody sv m o st vars = .exitLoop s v) : m ≤ s.iterations := by
  cases hc1 : o.codeResult.success with
  | false => simp [loopBody, hc1] at h
  | true =>
    cases hc2 : (effectiveExecutionOutput o).success with
    | false =>
      by_cases hc3 : st.iterations + 1 < m
      · simp [loopBody, hc1, hc2, hc3] at h
      · simp [loopBody, hc1, hc2, hc3] at h
    | true =>
      by_cases hc5 : m ≤ st.iterations + 1
      · simp [loopBody, hc1, hc2, hunsat, hc5] at h
        obtain ⟨h1, h2⟩ := h
        simp [← h1]
        omega
      · simp [loopBody, hc1, hc2, hunsat, hc5] at h

theorem loopBody_next_of_unsat {Row : Type} (sv : Bool) (m : Nat) (o : IterOracle Row)
    (st : OrchestrationState Row) (vars : LoopVars Row)
    (hgen : o.codeResult.success = true)
    (hunsat : (effectiveEvaluationOutput o).satisfiesQuery = false)
    (hlt : st.iterations + 1 < m) :
    ∃ s v, loopBody sv m o st vars = .next s v := by
  cases hc2 : (effectiveExecutionOutput o).success with
  | false =>
    exact ⟨_, _, by simp [loopBody, hgen, hc2, hlt]; exact ⟨rfl, rfl⟩⟩
  | true =>
    have hc5 : ¬m ≤ st.iterations + 1 := by omega
    exact ⟨_, _, by simp [loopBody, hgen, hc2, hunsat, hc5]; exact ⟨rfl, rfl⟩⟩

theorem runLoopAux_spec {Row : Type} (sv : Bool) (m : Nat) (oracle : Nat → IterOracle Row) :
    ∀ (fuel : Nat) (st : OrchestrationState Row) (vars : LoopVars Row),
      st.iterationHistory.length = st.iterations →
      st.finalResult = FinalResult.null →
      st.iterations ≤ m →
      (runLoopAux sv m oracle fuel st vars).1.iterations ≤ m ∧
      st.iterations ≤ (runLoopAux sv m oracle fuel st vars).1.iterations ∧
      ((runLoopAux sv m oracle fuel st vars).2.2 = true →
        (∃ e, (runLoopAux sv m oracle fuel st vars).1.finalResult =
          FinalResult.errorResult e) ∧
        (runLoopAux sv m oracle fuel st vars).1.iterationHistory.length + 1 =
          (runLoopAux sv m oracle fuel st vars).1.iterations) ∧
      ((runLoopAux sv m oracle fuel st vars).2.2 = false →
        (runLoopAux sv m oracle fuel st vars).1.iterationHistory.length =
          (runLoopAux sv m oracle fuel st vars).1.iterations ∧
        (runLoopAux sv m oracle fuel st vars).1.finalResult = FinalResult.null) ∧
      countStage "generation" (runLoopAux sv m oracle fuel st vars).1.responses =
        countStage "generation" st.responses +
          ((runLoopAux sv m oracle fuel st vars).1.iterations - st.iterations) ∧
      (0 < fuel → st.iterations < m →
        st.iterations < (runLoopAux sv m oracle fuel st vars).1.iterations) := by
  intro fuel
  induction fuel with
  | zero =>
    intro st vars h1 h2 h3
    simp only [runLoopAux]
    exact ⟨h3, Nat.le_refl _, by simp, fun _ => ⟨h1, h2⟩, by simp, by omega⟩
  | succ fuel ih =>
    intro st vars h1 h2 h3
    by_cases hguard : st.iterations < m
    · cases hb : loopBody sv m (oracle st.iterations) st vars with
      | terminal s1 =>
        have hit : s1.iterations = st.iterations + 1 := by
          have hx := loopBody_iterations sv m (oracle st.iterations) st vars
          rw [hb] at hx
          simpa [stepState] using hx
        obtain ⟨hh, e, hf⟩ := loopBody_terminal_hist hb
        have hgc := loopBody_genCount sv m (oracle st.iterations) st vars
        rw [hb] at hgc
        simp only [stepState] at hgc
        simp only [runLoopAux, if_pos hguard, hb]
        refine ⟨by omega, by omega, fun _ => ⟨⟨e, hf⟩, by rw [hh, h1]; omega⟩,
          by simp, by rw [hgc, hit]; omega, by omega⟩
      | exitLoop s1 v1 =>
        have hit : s1.iterations = st.iterations + 1 := by
          have hx := loopBody_iterations sv m (oracle st.iterations) st vars
          rw [hb] at hx
          simpa [stepState] using hx
        obtain ⟨hh, hf⟩ := loopBody_exit_hist hb
        have hgc := loopBody_genCount sv m (oracle st.iterations) st vars
        rw [hb] at hgc
        simp only [stepState] at hgc
        simp only [runLoopAux, if_pos hguard, hb]
        refine ⟨by omega, by omega, by simp,
          fun _ => ⟨by rw [hh, h1]; omega, by rw [hf, h2]⟩,
          by rw [hgc, hit]; omega, by omega⟩
      | next s1 v1 =>
        have hit : s1.iterations = st.iterations + 1 := by
          have hx := loopBody_iterations sv m (oracle st.iterations) st vars
          rw [hb] at hx
          simpa [stepState] using hx
        obtain ⟨hh, hf⟩ := loopBody_next_hist hb
        have hgc := loopBody_genCount sv m (oracle st.iterations) st vars
        rw [hb] at hgc
        simp only [stepState] at hgc
        have ih1 := ih s1 v1 (by omega) (by rw [hf, h2]) (by omega)
        obtain ⟨A, B, C, D, E, F⟩ := ih1
        simp only [runLoopAux, if_pos hguard, hb]
        exact ⟨A, by omega, C, D, by omega, fun _ _ => by omega⟩
    · simp only [runLoopAux, if_neg hguard]
      exact ⟨h3, Nat.le_refl _, by simp, fun _ => ⟨h1, h2⟩, by simp,
        fun _ hlt => absurd hlt hguard⟩

theorem runLoopAux_exhausts {Row : Type} (sv : Bool) (m : Nat)
    (oracle : Nat → IterOracle Row)
    (hgen : ∀ n, (oracle n).codeResult.success = true)
    (hunsat : ∀ n, (effectiveEvaluationOutput (oracle n)).satisfiesQuery = false) :
    ∀ (fuel : Nat) (st : OrchestrationState Row) (vars : LoopVars Row),
      st.iterations + fuel = m →
      (runLoopAux sv m oracle fuel st vars).1.iterations = m := by
  intro fuel
  induction fuel with
  | zero =>
    intro st vars hfuel
    simpa [runLoopAux] using hfuel
  | succ fuel ih =>
    intro st vars hfuel
    have hguard : st.iterations < m := by omega
    cases hb : loopBody sv m (oracle st.iterations) st vars with
    | terminal s1 =>
      have hit : s1.iterations = st.iterations + 1 := by
        have hx := loopBody_iterations sv m (oracle st.iterations) st vars
        rw [hb] at hx
        simpa [stepState] using hx
      have hmax := loopBody_terminal_max (hgen st.iterations) hb
      simp only [runLoopAux, if_pos hguard, hb]
      omega
    | exitLoop s1 v1 =>
      have hit : s1.iterations = st.iterations + 1 := by
        have hx := loopBody_iterations sv m (oracle st.iterations) st vars
        rw [hb] at hx
        simpa [stepState] using hx
      have hmax := loopBody_exit_max (hunsat st.iterations) hb
      simp only [runLoopAux, if_pos hguard, hb]
      omega
    | next s1 v1 =>
      have hit : s1.iterations = st.iterations + 1 := by
        have hx := loopBody_iterations sv m (oracle st.iterations) st vars
        rw [hb] at hx
        simpa [stepState] using hx
      simp only [runLoopAux, if_pos hguard, hb]
      exact ih s1 v1 (by omega)

theorem processQuery_db {Row : Type} (userQuery : String)
    (understandingResult : AgentRunResult QueryUnderstandingOutput)
    (schema : SchemaMetadata) (oracle : Nat → IterOracle Row)
    (cfg : Option Nat) (now : Nat)
    (hdb : (understandingResult.output.getD defaultUnderstandingOutput).requiresDatabase = true) :
    processQuery userQuery understandingResult (some schema) oracle cfg now =
      match runLoopAux
          (understandingResult.output.getD defaultUnderstandingOutput).shouldVisualize
          (jsOrNat cfg 3) oracle (jsOrNat cfg 3)
          (initialState userQuery schema
            (understandingResult.output.getD defaultUnderstandingOutput)
            understandingResult.timestamp)
          (initialVars Row) with
      | (st, _, true) => .ok (st, true)
      | (st, vars, false) =>
          .ok ({ st with finalResult := .assembled (assembleFinal st vars) }, true) := by
  simp only [processQuery]
  rw [if_neg (by simp [hdb])]
  rfl

/-- Counterexample for C5: with the default ceiling of 3, a run whose first
iteration is evaluated unsatisfied and whose second code generation fails
terminally ends with every recorded Evaluate outcome unsatisfied yet
`iterations = 2 ≠ 3 = maxIterations`. -/
theorem refinementLoop_unsatisfied_cex :
    (unsatThenGenFailRun.toOption.map fun p =>
      (p.1.iterations, allEvalsUnsatisfied p.1.iterationHistory,
       decide (p.1.iterations = jsOrNat none 3))) = some (2, true, false) := by
  rfl

/-- C5 (amended): every data query that reaches the refinement loop ends with
`1 ≤ iterations ≤ maxIterations`; the counter goes up by exactly one per pass
(it equals the number of generation-stage entries in the stage log); and
`iterations = maxIterations` whenever every Evaluate outcome was unsatisfied
and code generation never failed (a terminal generation failure can end the
run early with `iterations < maxIterations`). -/
theorem refinementLoop_iteration_bounds {Row : Type} (userQuery : String)
    (understandingResult : AgentRunResult QueryUnderstandingOutput)
    (schema : SchemaMetadata) (oracle : Nat → IterOracle Row)
    (maxIterationsCfg : Option Nat) (now : Nat)
    (hdb : (understandingResult.output.getD defaultUnderstandingOutput).requiresDatabase = true) :
    ∃ st : OrchestrationState Row,
      processQuery userQuery understandingResult (some schema) oracle
          maxIterationsCfg now = .ok (st, true) ∧
      1 ≤ st.iterations ∧
      st.iterations ≤ jsOrNat maxIterationsCfg 3 ∧
      countStage "generation" st.responses = st.iterations ∧
      ((∀ n, (oracle n).codeResult.success = true) →
        (∀ n, (effectiveEvaluationOutput (oracle n)).satisfiesQuery = false) →
        st.iterations = jsOrNat maxIterationsCfg 3) := by
  have hpq := processQuery_db userQuery understandingResult schema oracle
    maxIterationsCfg now hdb
  set u := understandingResult.output.getD defaultUnderstandingOutput with hu
  set m := jsOrNat maxIterationsCfg 3 with hm
  set st0 : OrchestrationState Row :=
    initialState userQuery schema u understandingResult.timestamp with hst0
  have hm1 : 0 < m := jsOrNat_pos _ _ (by omega)
  have h00 : st0.iterations = 0 := rfl
  have hc0 : countStage "generation" st0.responses = 0 := rfl
  obtain ⟨A, B, C, D, E, F⟩ :=
    runLoopAux_spec u.shouldVisualize m oracle m st0 (initialVars Row) rfl rfl
      (by omega)
  have hex := runLoopAux_exhausts u.shouldVisualize m oracle
  rcases hr : runLoopAux u.shouldVisualize m oracle m st0 (initialVars Row) with
    ⟨stR, varsR, term⟩
  rw [hr] at A B C D E F
  dsimp only at A B C D E F
  cases term with
  | true =>
    refine ⟨stR, by rw [hpq, hr], by omega, A, by omega, ?_⟩
    intro hg hu'
    have hx := hex hg hu' m st0 (initialVars Row) (by omega)
    rw [hr] at hx
    exact hx
  | false =>
    refine ⟨{ stR with finalResult := .assembled (assembleFinal stR varsR) },
      by rw [hpq, hr], ?_, ?_, ?_, ?_⟩
    · dsimp only
      omega
    · dsimp only
      exact A
    · dsimp only
      omega
    · intro hg hu'
      have hx := hex hg hu' m st0 (initialVars Row) (by omega)
      rw [hr] at hx
      dsimp only
      exact hx

/-- Witness for C5 (amended): a concrete run where every stage succeeds and
every evaluation is satisfied, under the default ceiling. -/
theorem refinementLoop_iteration_bounds_witness :
    ∃ st : OrchestrationState Nat,
      processQuery "list users" fixtureUnderstandingData (some fixtureSchema)
          allSatOracle none 0 = .ok (st, true) ∧
      1 ≤ st.iterations ∧
      st.iterations ≤ jsOrNat none 3 ∧
      countStage "generation" st.responses = st.iterations ∧
      ((∀ n, (allSatOracle n).codeResult.success = true) →
        (∀ n, (effectiveEvaluationOutput (allSatOracle n)).satisfiesQuery = false) →
        st.iterations = jsOrNat none 3) :=
  refinementLoop_iteration_bounds "list users" fixtureUnderstandingData
    fixtureSchema allSatOracle none 0 rfl

/-- C10: when `processQuery` ends through a terminal failure its final
iteration's `IterationInfo` was never appended (`iterationHistory` has
exactly one entry fewer than the counter, hence strictly fewer), and when
the loop exits normally into the assembled result there is exactly one entry
per counted iteration. -/
theorem iterationHistory_counts {Row : Type} (userQuery : String)
    (understandingResult : AgentRunResult QueryUnderstandingOutput)
    (schema : SchemaMetadata) (oracle : Nat → IterOracle Row)
    (maxIterationsCfg : Option Nat) (now : Nat)
    (hdb : (understandingResult.output.getD defaultUnderstandingOutput).requiresDatabase = true) :
    ∃ st : OrchestrationState Row,
      processQuery userQuery understandingResult (some schema) oracle
          maxIterationsCfg now = .ok (st, true) ∧
      (∀ e, st.finalResult = FinalResult.errorResult e →
        st.iterationHistory.length + 1 = st.iterations ∧
        st.iterationHistory.length < st.iterations) ∧
      (∀ f, st.finalResult = FinalResult.assembled f →
        st.iterationHistory.length = st.iterations) := by
  have hpq := processQuery_db userQuery understandingResult schema oracle
    maxIterationsCfg now hdb
  set u := understandingResult.output.getD defaultUnderstandingOutput with hu
  set m := jsOrNat maxIterationsCfg 3 with hm
  set st0 : OrchestrationState Row :=
    initialState userQuery schema u understandingResult.timestamp with hst0
  have h00 : st0.iterations = 0 := rfl
  obtain ⟨A, B, C, D, E, F⟩ :=
    runLoopAux_spec u.shouldVisualize m oracle m st0 (initialVars Row) rfl rfl
      (by omega)
  rcases hr : runLoopAux u.shouldVisualize m oracle m st0 (initialVars Row) with
    ⟨stR, varsR, term⟩
  rw [hr] at A B C D E F
  dsimp only at A B C D E F
  cases term with
  | true =>
    obtain ⟨⟨e0, hf⟩, hlen⟩ := C rfl
    refine ⟨stR, by rw [hpq, hr], ?_, ?_⟩
    · intro e he
      omega
    · intro f hf'
      rw [hf] at hf'
      cases hf'
  | false =>
    obtain ⟨hlen, hnull⟩ := D rfl
    refine ⟨{ stR with finalResult := .assembled (assembleFinal stR varsR) },
      by rw [hpq, hr], ?_, ?_⟩
    · intro e he
      dsimp only at he
      simp at he
    · intro f hf'
      dsimp only
      exact hlen

/-- Witness for C10: the concrete run whose second generation fails
terminally. -/
theorem iterationHistory_counts_witness :
    ∃ st : OrchestrationState Nat,
      processQuery "list users" fixtureUnderstandingData (some fixtureSchema)
          unsatThenGenFailOracle none 0 = .ok (st, true) ∧
      (∀ e, st.finalResult = FinalResult.errorResult e →
        st.iterationHistory.length + 1 = st.iterations ∧
        st.iterationHistory.length < st.iterations) ∧
      (∀ f, st.finalResult = FinalResult.assembled f →
        st.iterationHistory.length = st.iterations) :=
  iterationHistory_counts "list users" fixtureUnderstandingData fixtureSchema
    unsatThenGenFailOracle none 0 rfl

/-- C8: a query classified conversational returns with the catalog never
fetched from the adapter (the fetch flag is false and the state carries the
empty placeholder catalog), a stage log holding exactly the understanding
and chat stages (no generation, execution, reasoning or evaluation stage),
a zero iteration counter, an empty iteration log, and a `finalResult` whose
`iterations` field is 0. -/
theorem chatShortCircuit_no_pipeline {Row : Type} (userQuery : String)
    (understandingResult : AgentRunResult QueryUnderstandingOutput)
    (dbAdapter : Option SchemaMetadata) (oracle : Nat → IterOracle Row)
    (cfg : Option Nat) (now : Nat) (u : QueryUnderstandingOutput)
    (hout : understandingResult.output = some u)
    (hchat : u.requiresDatabase = false) :
    ∃ st : OrchestrationState Row,
      processQuery userQuery understandingResult dbAdapter oracle cfg now =
        .ok (st, false) ∧
      st.responses.map (fun r => r.stage) = ["understanding", "chat"] ∧
      st.iterations = 0 ∧
      st.iterationHistory = [] ∧
      st.finalResult.iterationsField = some 0 ∧
      st.schemaMetadata = { tables := [], lastUpdated := now } := by
  simp only [processQuery, hout, Option.getD_some, hchat]
  refine ⟨_, rfl, by simp, rfl, rfl, rfl, rfl⟩

/-- Witness for C8: a concrete conversational query. -/
theorem chatShortCircuit_no_pipeline_witness :
    ∃ st : OrchestrationState Nat,
      processQuery "hello" fixtureUnderstandingChat (some fixtureSchema)
          allSatOracle none 5 = .ok (st, false) ∧
      st.responses.map (fun r => r.stage) = ["understanding", "chat"] ∧
      st.iterations = 0 ∧
      st.iterationHistory = [] ∧
      st.finalResult.iterationsField = some 0 ∧
      st.schemaMetadata = { tables := [], lastUpdated := 5 } :=
  chatShortCircuit_no_pipeline "hello" fixtureUnderstandingChat
    (some fixtureSchema) allSatOracle none 5 _ rfl rfl

/-- C6: when an iteration's Execute stage fails: with iterations left, the
pass continues the loop — the next refinement hint is the text built from
the execution error, only the generation and execution stages are logged
(no Reason or Evaluate), and the iteration is recorded without an
evaluation; at the ceiling, the pass returns terminally with `finalResult`
set to the execution error, without recording the iteration. -/
theorem executionFailure_retry_or_abort {Row : Type} (sv : Bool) (m : Nat)
    (o : IterOracle Row) (st : OrchestrationState Row) (vars : LoopVars Row)
    (hgen : o.codeResult.success = true)
    (hexec : (effectiveExecutionOutput o).success = false) :
    if st.iterations + 1 < m then
      loopBody sv m o st vars = LoopStep.next
        { st with
            iterations := st.iterations + 1,
            responses := st.responses ++
              [{ stage := "generation",
                 output := .generation (effectiveCodeOutput o),
                 timestamp := o.codeResult.timestamp },
               { stage := "execution",
                 output := .execution (effectiveExecutionOutput o),
                 timestamp := o.executionResult.timestamp }],
            iterationHistory := st.iterationHistory ++
              [{ iteration := st.iterations + 1,
                 refinementContext := vars.refinementContext,
                 evaluation := none }] }
        { vars with
            refinementContext :=
              some (executionFailureRefinement (effectiveExecutionOutput o).error),
            lastCodeOutput := some (effectiveCodeOutput o),
            lastExecutionOutput := some (effectiveExecutionOutput o) }
    else
      loopBody sv m o st vars = LoopStep.terminal
        { st with
            iterations := st.iterations + 1,
            responses := st.responses ++
              [{ stage := "generation",
                 output := .generation (effectiveCodeOutput o),
                 timestamp := o.codeResult.timestamp },
               { stage := "execution",
                 output := .execution (effectiveExecutionOutput o),
                 timestamp := o.executionResult.timestamp }],
            finalResult := FinalResult.errorResult (effectiveExecutionOutput o).error } := by
  by_cases hc3 : st.iterations + 1 < m
  · rw [if_pos hc3]
    simp [loopBody, hgen, hexec, hc3]
  · rw [if_neg hc3]
    simp [loopBody, hgen, hexec, hc3]

/-- Witness for C6: a concrete failing execution on the first of three
iterations continues into refinement with the error text as the next hint. -/
theorem executionFailure_retry_or_abort_witness :
    ∃ s v, loopBody false 3 fixtureIterExecFail fixtureState0 fixtureVars0 =
        LoopStep.next s v ∧
      v.refinementContext =
        some (executionFailureRefinement (some ("syntax error at or near SELEC"))) ∧
      s.iterationHistory =
        [{ iteration := 1, refinementContext := none, evaluation := none }] := by
  have h := executionFailure_retry_or_abort false 3 fixtureIterExecFail
    fixtureState0 fixtureVars0 rfl rfl
  rw [if_pos (by decide)] at h
  exact ⟨_, _, h, rfl, rfl⟩
